import Mathlib

/-!
Shallow embedding of the PDF assembly logic of `src/App.tsx` (pdf-project):
the helper `addTextToPDF` (lines 73–114) and the pipeline
`processAndMergePDFs` (lines 116–207), together with the start-number
input handlers (lines 361 and 420) and the initial state (lines 21–22).

A PDF document is modelled as a list of pages; a page records its size,
an abstract content identifier (provenance), and the list of text draws
(overlays) that `drawText` has placed on it.  `PDFDocument.load` is
modelled as a function that either yields the page list (valid buffer)
or fails (malformed buffer); the generic exception caught at the end of
`processAndMergePDFs` is modelled as the `malformedSource` error of the
spec's taxonomy.
-/

namespace PdfProject

/-- The font embedded by `pdfDoc.embedFont`: either the fetched
Chinese-capable font buffer (`custom`) or the fallback `'Helvetica'`
standard font (lines 76–83 of `addTextToPDF`). -/
inductive Font where
  | custom
  | helvetica
deriving DecidableEq, Repr

/-- Abstract provenance of a page: a page of some source document, or a
blank page created by `mergedPdf.addPage()`. -/
inductive PageContent where
  | blank
  | doc (id : Nat)
deriving DecidableEq, Repr

/-- One `page.drawText(text, {x, y, size, font, color})` call.  The color
is always `rgb(0,0,0)` in the source, so it is omitted. -/
structure TextDraw where
  text : String
  x : Int
  y : Int
  size : Nat
  font : Font
deriving DecidableEq, Repr

/-- A PDF page: its size, abstract content, and the overlays drawn on it. -/
structure Page where
  width : Int
  height : Int
  content : PageContent
  overlays : List TextDraw
deriving DecidableEq, Repr

/-- A raw input buffer: either it parses to a list of pages or
`PDFDocument.load` throws on it. -/
inductive PDFBytes where
  | valid (pages : List Page)
  | malformed
deriving DecidableEq, Repr

/-- Error taxonomy of the assembly pipeline (spec §7): the empty-input
alert at line 118, the font-loading alert at line 123, and the catch-all
at lines 201–204 reached when a source buffer fails to parse. -/
inductive AssemblyError where
  | emptyInput
  | fontUnavailable
  | malformedSource
deriving DecidableEq, Repr

/-- `PDFDocument.load`: yields the pages of a valid buffer, throws on a
malformed one (surfaced by `processAndMergePDFs` as `malformedSource`). -/
def loadPDF : PDFBytes → Except AssemblyError (List Page)
  | .valid pages => .ok pages
  | .malformed => .error .malformedSource

/-- `pdfDoc.embedFont`: the custom font when a buffer is present, the
`'Helvetica'` fallback otherwise (lines 76–83). -/
def embedFont : Option Nat → Font
  | some _ => .custom
  | none => .helvetica

/-- The page produced by `mergedPdf.addPage()` with no argument
(pdf-lib default page size, truncated to integers; no claim depends on
the exact size): a fresh page with no content and no overlays. -/
def blankPage : Page :=
  { width := 595, height := 842, content := .blank, overlays := [] }

/-- The label draw on the first page (lines 92–98):
`drawText(text, {x: width - 100, y: height - 50, size: textFontSize, font})`. -/
def labelDraw (p : Page) (text : String) (font : Font) (textFontSize : Nat) : TextDraw :=
  { text := text, x := p.width - 100, y := p.height - 50, size := textFontSize, font := font }

/-- The caption text drawn on every page (line 104):
`第 ${index + 1} 頁 共 ${pageCount} 頁`. -/
def captionText (n pageCount : Nat) : String :=
  "第 " ++ toString n ++ " 頁 共 " ++ toString pageCount ++ " 頁"

/-- The caption draw on each page (lines 102–111):
`drawText(..., {x: width - 120, y: 30, size: 10, font})`. -/
def captionDraw (p : Page) (n pageCount : Nat) (font : Font) : TextDraw :=
  { text := captionText n pageCount, x := p.width - 120, y := 30, size := 10, font := font }

/-- The page edits of `addTextToPDF` (lines 85–111): draw `text` on the
first page (if any), then draw the running caption on every page. -/
def stampPages (pages : List Page) (text : String) (pageCount : Nat)
    (font : Font) (textFontSize : Nat) : List Page :=
  let withLabel : List Page :=
    match pages with
    | [] => []
    | first :: rest =>
        { first with overlays := first.overlays ++ [labelDraw first text font textFontSize] } :: rest
  withLabel.enum.map fun ip =>
    { ip.2 with overlays := ip.2.overlays ++ [captionDraw ip.2 (ip.1 + 1) pageCount font] }

/-- `addTextToPDF` (lines 73–114): load the buffer, embed the custom font
or fall back to Helvetica, stamp the pages, save.  The `pageNumberText`
argument is declared but never read in the body. -/
def addTextToPDF (pdfBytes : PDFBytes) (text : String) (pageNumberText : String)
    (pageCount : Nat) (fontBuffer : Option Nat) (textFontSize : Nat) :
    Except AssemblyError PDFBytes := do
  let pages ← loadPDF pdfBytes
  let font := embedFont fontBuffer
  pure (PDFBytes.valid (stampPages pages text pageCount font textFontSize))

/-- The template string both call sites pass as `pageNumberText`
(lines 154 and 180): `` `第 {pageNum} 頁 共 ${pageCount} 頁` `` — the
`\x7bpageNum\x7d` placeholder is left unexpanded there. -/
def captionTemplate (pageCount : Nat) : String :=
  "第 \x7bpageNum\x7d 頁 共 " ++ toString pageCount ++ " 頁"

/-- One of the two identical group loops of `processAndMergePDFs`
(lines 145–168 for attachments, 171–194 for evidence): for each file,
load it, stamp it via `addTextToPDF` with label `name + (start + i)`,
reload the processed bytes, append its pages to the merged output, and
append one blank page when the file's own page count is odd and the
duplex flag is set.  The loop index is carried as the running label
number `n`. -/
def processGroup (files : List PDFBytes) (name : String) (n : Int)
    (fontBytes : Nat) (fontSize : Nat) (pad : Bool) :
    Except AssemblyError (List Page) :=
  match files with
  | [] => .ok []
  | bytes :: rest => do
      let pdf ← loadPDF bytes
      let pageCount := pdf.length
      let processedBytes ← addTextToPDF bytes (name ++ toString n)
          (captionTemplate pageCount) pageCount (some fontBytes) fontSize
      let processed ← loadPDF processedBytes
      let tail ← processGroup rest name (n + 1) fontBytes fontSize pad
      pure (processed ++ (if pad ∧ pageCount % 2 = 1 then [blankPage] else []) ++ tail)

/-- The component state used by the pipeline (lines 14–26 of `App.tsx`). -/
structure AppState where
  mainDocument : Option PDFBytes
  attachments : List PDFBytes
  evidence : List PDFBytes
  previewUrl : Option (List Page)
  fontBytes : Option Nat
  fontSize : Nat
  attachmentStartNumber : Int
  evidenceStartNumber : Int
  addBlankForDoubleSided : Bool
  attachmentName : String
  evidenceName : String
deriving DecidableEq, Repr

/-- The `try` block of `processAndMergePDFs` (lines 129–196): main pages
copied with no processing (plus duplex pad), then the attachment group,
then the evidence group.  `fontBytes` is the font buffer already checked
non-null at line 122. -/
def mergePipeline (st : AppState) (fontBytes : Nat) : Except AssemblyError (List Page) := do
  let mainPart ←
    match st.mainDocument with
    | none => pure []
    | some mainBytes => do
        let mainPdf ← loadPDF mainBytes
        pure (mainPdf ++
          (if st.addBlankForDoubleSided ∧ mainPdf.length % 2 = 1 then [blankPage] else []))
  let attPart ← processGroup st.attachments st.attachmentName st.attachmentStartNumber
      fontBytes st.fontSize st.addBlankForDoubleSided
  let evPart ← processGroup st.evidence st.evidenceName st.evidenceStartNumber
      fontBytes st.fontSize st.addBlankForDoubleSided
  pure (mainPart ++ attPart ++ evPart)

/-- `processAndMergePDFs` (lines 116–207): alert-and-return on empty
input (lines 117–120), alert-and-return when the font has not loaded
(lines 122–125), otherwise run the merge pipeline; on success store the
merged output as the preview, on a thrown parse error alert and leave
the preview untouched. -/
def processAndMergePDFs (st : AppState) : AppState × Except AssemblyError Unit :=
  if st.mainDocument = none ∧ st.attachments = [] ∧ st.evidence = [] then
    (st, .error .emptyInput)
  else
    match st.fontBytes with
    | none => (st, .error .fontUnavailable)
    | some fb =>
        match mergePipeline st fb with
        | .ok merged => ({ st with previewUrl := some merged }, .ok ())
        | .error _ => (st, .error .malformedSource)

/-- The `onChange` handler of the attachment start-number input
(line 361): `Math.max(1, parseInt(e.target.value) || 1)`.  The parse
result is `none` when `parseInt` returns `NaN`; `|| 1` also replaces a
parsed `0` (both are falsy). -/
def attachmentStartOnChange (parsed : Option Int) : Int :=
  max 1 (match parsed with
    | none => 1
    | some v => if v = 0 then 1 else v)

/-- The `onChange` handler of the evidence start-number input
(line 420), identical to the attachment one. -/
def evidenceStartOnChange (parsed : Option Int) : Int :=
  max 1 (match parsed with
    | none => 1
    | some v => if v = 0 then 1 else v)

/-- `useState(1)` initial value of `attachmentStartNumber` (line 21). -/
def attachmentStartNumberInit : Int := 1

/-- `useState(1)` initial value of `evidenceStartNumber` (line 22). -/
def evidenceStartNumberInit : Int := 1

/-- The blank page appended after a file when the duplex flag is on and
the file's own page count is odd (the `if (addBlankForDoubleSided &&
pageCount % 2 !== 0) mergedPdf.addPage()` pattern at lines 139, 165, 191). -/
def padSeg (pad : Bool) (ps : List Page) : List Page :=
  if pad ∧ ps.length % 2 = 1 then [blankPage] else []

/-- Closed form of one group loop over all-valid files: the stamped pages
of each file, its duplex pad, in order, with the label number counting up
from `n`. -/
def groupSegs (files : List (List Page)) (name : String) (n : Int)
    (fontSize : Nat) (pad : Bool) : List Page :=
  match files with
  | [] => []
  | ps :: rest =>
      stampPages ps (name ++ toString n) ps.length .custom fontSize
        ++ padSeg pad ps ++ groupSegs rest name (n + 1) fontSize pad

/-- The pages contributed by the main document: its pages verbatim plus
its duplex pad (lines 131–142). -/
def mainSeg (mainPs : Option (List Page)) (pad : Bool) : List Page :=
  match mainPs with
  | none => []
  | some ps => ps ++ padSeg pad ps

/-- Build an `AppState` whose buffers are all valid, from the page lists
of the main document, the attachments and the evidence. -/
def mkState (mainPs : Option (List Page)) (atts evs : List (List Page))
    (prev : Option (List Page)) (fontBytes : Option Nat) (fontSize : Nat)
    (attStart evStart : Int) (pad : Bool) (attName evName : String) : AppState :=
  { mainDocument := mainPs.map PDFBytes.valid
    attachments := atts.map PDFBytes.valid
    evidence := evs.map PDFBytes.valid
    previewUrl := prev
    fontBytes := fontBytes
    fontSize := fontSize
    attachmentStartNumber := attStart
    evidenceStartNumber := evStart
    addBlankForDoubleSided := pad
    attachmentName := attName
    evidenceName := evName }

/-- Spec-side: the label of the i-th file (0-indexed) of a group —
literal concatenation of the prefix and the integer `startIndex + i`,
no separator, no leading zeros (spec §4.2). -/
def labelForFile (pre : String) (startIndex : Int) (i : Nat) : String :=
  pre ++ toString (startIndex + (i : Int))

/-- Spec-side: the blank marker a file contributes after its pages when
padding is enabled and its page count is odd. -/
def blankMarks (pad : Bool) (ps : List Page) : List PageContent :=
  if pad ∧ ps.length % 2 = 1 then [PageContent.blank] else []

/-- Spec-side (§3 invariant): the expected output page order —
main pages, then each attachment file's pages, then each evidence
file's pages, each file followed by its optional blank pad. -/
def specExpectedOrder (mainPs : Option (List Page)) (atts evs : List (List Page))
    (pad : Bool) : List PageContent :=
  (match mainPs with
   | none => []
   | some ps => ps.map Page.content ++ blankMarks pad ps)
  ++ (atts.map fun ps => ps.map Page.content ++ blankMarks pad ps).flatten
  ++ (evs.map fun ps => ps.map Page.content ++ blankMarks pad ps).flatten

/-- Spec-side (§8): expected output page count — the sum of every source
file's page count plus, when padding is enabled, one per odd-paged file. -/
def specExpectedCount (mainPs : Option (List Page)) (atts evs : List (List Page))
    (pad : Bool) : Nat :=
  let all := (match mainPs with | none => [] | some ps => [ps]) ++ atts ++ evs
  (all.map List.length).sum
    + (if pad then (all.filter fun ps => ps.length % 2 = 1).length else 0)

theorem stampPages_length (pages : List Page) (text : String) (pageCount : Nat)
    (font : Font) (fs : Nat) :
    (stampPages pages text pageCount font fs).length = pages.length := by
  unfold stampPages
  cases pages <;> simp [List.enum_length]

theorem enum_overlay_content (l : List Page) (g : Nat × Page → List TextDraw) :
    (l.enum.map fun ip => { ip.2 with overlays := g ip }).map Page.content
      = l.map Page.content := by
  rw [List.map_map]
  have h : (Page.content ∘ fun ip : Nat × Page => { ip.2 with overlays := g ip })
      = Page.content ∘ Prod.snd := rfl
  rw [h, ← List.map_map, List.enum_map_snd]

theorem stampPages_content (pages : List Page) (text : String) (pageCount : Nat)
    (font : Font) (fs : Nat) :
    (stampPages pages text pageCount font fs).map Page.content = pages.map Page.content := by
  unfold stampPages
  cases pages with
  | nil => rfl
  | cons first rest =>
      rw [enum_overlay_content]
      rfl

theorem processGroup_valid (files : List (List Page)) (name : String) (n : Int)
    (fb fs : Nat) (pad : Bool) :
    processGroup (files.map PDFBytes.valid) name n fb fs pad
      = .ok (groupSegs files name n fs pad) := by
  induction files generalizing n with
  | nil => rfl
  | cons ps rest ih =>
      simp [processGroup, groupSegs, loadPDF, addTextToPDF, embedFont, padSeg, ih,
        Bind.bind, Except.bind, pure, Except.pure]

theorem padSeg_content (pad : Bool) (ps : List Page) :
    (padSeg pad ps).map Page.content = blankMarks pad ps := by
  unfold padSeg blankMarks
  split <;> rfl

theorem padSeg_length (pad : Bool) (ps : List Page) :
    (padSeg pad ps).length = if pad ∧ ps.length % 2 = 1 then 1 else 0 := by
  unfold padSeg
  split <;> rfl

theorem groupSegs_content (files : List (List Page)) (name : String) (n : Int)
    (fs : Nat) (pad : Bool) :
    (groupSegs files name n fs pad).map Page.content
      = (files.map fun ps => ps.map Page.content ++ blankMarks pad ps).flatten := by
  induction files generalizing n with
  | nil => rfl
  | cons ps rest ih =>
      simp [groupSegs, List.map_append, stampPages_content, padSeg_content, ih]

theorem groupSegs_length (files : List (List Page)) (name : String) (n : Int)
    (fs : Nat) (pad : Bool) :
    (groupSegs files name n fs pad).length
      = (files.map List.length).sum
        + (if pad then (files.filter fun ps => ps.length % 2 = 1).length else 0) := by
  induction files generalizing n with
  | nil => simp [groupSegs]
  | cons ps rest ih =>
      cases pad with
      | false => simp [groupSegs, stampPages_length, padSeg, ih]
      | true =>
          by_cases h : ps.length % 2 = 1 <;>
            simp [groupSegs, stampPages_length, padSeg, ih, h, List.filter_cons] <;>
            omega

theorem mergePipeline_mkState (mainPs : Option (List Page)) (atts evs : List (List Page))
    (prev : Option (List Page)) (fbField : Option Nat) (fs : Nat) (sa se : Int)
    (pad : Bool) (an en : String) (fb : Nat) :
    mergePipeline (mkState mainPs atts evs prev fbField fs sa se pad an en) fb
      = .ok (mainSeg mainPs pad ++ groupSegs atts an sa fs pad
              ++ groupSegs evs en se fs pad) := by
  cases mainPs with
  | none =>
      simp [mergePipeline, mkState, mainSeg, processGroup_valid,
        Bind.bind, Except.bind, pure, Except.pure]
  | some ps =>
      simp [mergePipeline, mkState, mainSeg, loadPDF, padSeg, processGroup_valid,
        Bind.bind, Except.bind, pure, Except.pure]

/-- Claim C1: for every assembly run over the three groups with valid
source buffers, the page order of the merged output equals the
concatenation of the main file's pages, then each attachment file's
pages in the order the files were added, then each evidence file's
pages in the same way, each source file's internal page order preserved,
with a blank pad page (when inserted) sitting immediately after its
source file's pages. -/
theorem merged_page_order (mainPs : Option (List Page)) (atts evs : List (List Page))
    (prev : Option (List Page)) (fbField : Option Nat) (fs : Nat) (sa se : Int)
    (pad : Bool) (an en : String) (fb : Nat) :
    (mergePipeline (mkState mainPs atts evs prev fbField fs sa se pad an en) fb).map
        (List.map Page.content)
      = .ok (specExpectedOrder mainPs atts evs pad) := by
  rw [mergePipeline_mkState]
  cases mainPs with
  | none =>
      simp [Except.map, mainSeg, specExpectedOrder, groupSegs_content,
        List.map_append]
  | some ps =>
      simp [Except.map, mainSeg, specExpectedOrder, groupSegs_content,
        padSeg_content, List.map_append]

/-- Claim C2: the output's total page count equals the sum of every
source file's page count plus, when `padOddPagesForDuplex` is enabled,
exactly one blank page per source file whose own page count is odd; the
padding contribution of each file depends only on that file's parity,
and with the flag disabled no blank page is added. -/
theorem merged_page_count (mainPs : Option (List Page)) (atts evs : List (List Page))
    (prev : Option (List Page)) (fbField : Option Nat) (fs : Nat) (sa se : Int)
    (pad : Bool) (an en : String) (fb : Nat) :
    (mergePipeline (mkState mainPs atts evs prev fbField fs sa se pad an en) fb).map
        List.length
      = .ok (specExpectedCount mainPs atts evs pad) := by
  rw [mergePipeline_mkState]
  cases mainPs with
  | none =>
      cases pad <;>
        simp [Except.map, mainSeg, specExpectedCount, groupSegs_length,
          List.sum_append, List.filter_append] <;>
        omega
  | some ps =>
      cases pad with
      | false =>
          simp [Except.map, mainSeg, specExpectedCount, groupSegs_length, padSeg,
            List.sum_append, List.filter_append]
      | true =>
          by_cases h : ps.length % 2 = 1 <;>
            simp [Except.map, mainSeg, specExpectedCount, groupSegs_length, padSeg, h,
              List.sum_append, List.filter_append, List.filter_cons] <;>
            omega

/-- Claim C5: the main-group file's pages are copied into the output
with no text overlay applied: the first block of the merged output is
exactly the main file's pages, unmodified. -/
theorem main_pages_unmodified (mainPs : List Page) (atts evs : List (List Page))
    (prev : Option (List Page)) (fbField : Option Nat) (fs : Nat) (sa se : Int)
    (pad : Bool) (an en : String) (fb : Nat) :
    (mergePipeline (mkState (some mainPs) atts evs prev fbField fs sa se pad an en) fb).map
        (fun out => out.take mainPs.length)
      = .ok mainPs := by
  rw [mergePipeline_mkState]
  simp only [Except.map, mainSeg, List.append_assoc]
  rw [List.take_left]

/-- Claim C6: invoking assembly when all three groups contain zero files
fails with the empty-input error and leaves the state (in particular the
preview output) untouched: the merge pipeline is never entered. -/
theorem empty_input_aborts (st : AppState) (h1 : st.mainDocument = none)
    (h2 : st.attachments = []) (h3 : st.evidence = []) :
    processAndMergePDFs st = (st, .error .emptyInput) := by
  simp [processAndMergePDFs, h1, h2, h3]

/-- A state with no files in any group. -/
def emptyState : AppState :=
  { mainDocument := none, attachments := [], evidence := [], previewUrl := none,
    fontBytes := some 0, fontSize := 16, attachmentStartNumber := 1,
    evidenceStartNumber := 1, addBlankForDoubleSided := true,
    attachmentName := "附件", evidenceName := "證物" }

theorem empty_input_aborts_witness :
    processAndMergePDFs emptyState = (emptyState, .error .emptyInput) :=
  empty_input_aborts emptyState rfl rfl rfl

/-- Claim C9: both start-number input handlers clamp every entered value
to a minimum of 1, substitute 1 for unparseable input, and the initial
start numbers are 1, so any assembly run receives a start index ≥ 1 for
both groups. -/
theorem start_number_clamped :
    (∀ v : Option Int, 1 ≤ attachmentStartOnChange v ∧ 1 ≤ evidenceStartOnChange v)
    ∧ attachmentStartOnChange none = 1 ∧ evidenceStartOnChange none = 1
    ∧ attachmentStartNumberInit = 1 ∧ evidenceStartNumberInit = 1 :=
  ⟨fun _ => ⟨le_max_left 1 _, le_max_left 1 _⟩, rfl, rfl, rfl, rfl⟩

/-- Claim C10: `addTextToPDF` never reads its `pageNumberText` argument:
two calls agreeing on every other argument produce the same document,
whatever template strings are passed. -/
theorem addTextToPDF_ignores_pageNumberText (pdfBytes : PDFBytes) (text t1 t2 : String)
    (pageCount : Nat) (fontBuffer : Option Nat) (fs : Nat) :
    addTextToPDF pdfBytes text t1 pageCount fontBuffer fs
      = addTextToPDF pdfBytes text t2 pageCount fontBuffer fs := rfl

theorem groupSegs_enumFrom (files : List (List Page)) (pre : String) (s0 : Int)
    (fs : Nat) (pad : Bool) :
    ∀ k : Nat, groupSegs files pre (s0 + k) fs pad
      = ((files.enumFrom k).map fun ip =>
          stampPages ip.2 (labelForFile pre s0 ip.1) ip.2.length .custom fs
            ++ padSeg pad ip.2).flatten := by
  induction files with
  | nil => intro k; rfl
  | cons ps rest ih =>
      intro k
      have h1 : s0 + (k : Int) + 1 = s0 + ((k + 1 : Nat) : Int) := by push_cast; ring
      rw [groupSegs, h1, ih (k + 1)]
      simp [List.enumFrom, labelForFile, List.append_assoc]

/-- One source page with no overlays. -/
def onePage : Page := { width := 595, height := 842, content := .doc 1, overlays := [] }

/-- Claim C3: over all-valid files, the i-th file (0-indexed) of a group
with label prefix `pre` and start index `s` is stamped with the label
`labelForFile pre s i = pre ++ toString (s + i)` — literal concatenation,
no separator, no leading zeros — and the label draw lands only on that
file's first page (every other page receives only the running caption);
with prefix `附件` and start index 3, two files get exactly `附件3` and
`附件4`. -/
theorem group_labels :
    (∀ (files : List (List Page)) (pre : String) (s : Int) (fb fs : Nat) (pad : Bool),
      processGroup (files.map PDFBytes.valid) pre s fb fs pad
        = .ok ((files.enum.map fun ip =>
            stampPages ip.2 (labelForFile pre s ip.1) ip.2.length .custom fs
              ++ padSeg pad ip.2).flatten))
    ∧ (∀ (p : Page) (rest : List Page) (t : String) (pc : Nat) (f : Font) (sz : Nat),
        stampPages (p :: rest) t pc f sz
          = { p with overlays := p.overlays ++ [labelDraw p t f sz, captionDraw p 1 pc f] }
            :: ((rest.enumFrom 1).map fun jp =>
                { jp.2 with overlays := jp.2.overlays ++ [captionDraw jp.2 (jp.1 + 1) pc f] }))
    ∧ labelForFile "附件" 3 0 = "附件3" ∧ labelForFile "附件" 3 1 = "附件4" := by
  refine ⟨?_, ?_, by decide, by decide⟩
  · intro files pre s fb fs pad
    rw [processGroup_valid]
    have h := groupSegs_enumFrom files pre s fs pad 0
    simpa using h
  · intro p rest t pc f sz
    unfold stampPages
    simp [List.enum_cons, labelDraw, captionDraw, List.append_assoc]

/-- Claim C4, counterexample: a run whose only input is a one-page main
document succeeds, and its single output page carries no overlay at all
— in particular no caption — refuting "every output page carries a
caption". -/
theorem caption_every_page_cex :
    (mergePipeline (mkState (some [onePage]) [] [] none (some 0) 16 1 1 false "附件" "證物")
        0).map (List.map Page.overlays)
      = .ok [[]] := rfl

/-- Claim C4 as amended: every page of a stamped (attachment or
evidence) source file carries, as its last drawn overlay, the caption
`第 n 頁 共 pageCount 頁` where `n` is the page's 1-based position
within its own source file and `pageCount` that file's page count; the
caption is drawn at fixed size 10, independent of the user-configurable
label font size; blank pad pages carry no overlay. -/
theorem caption_stamped_pages (pages : List Page) (text : String) (pageCount : Nat)
    (f : Font) (sz : Nat) :
    (stampPages pages text pageCount f sz).length = pages.length
    ∧ (stampPages pages text pageCount f sz).map (fun p => p.overlays.getLast?)
        = pages.enum.map (fun ip => some (captionDraw ip.2 (ip.1 + 1) pageCount f))
    ∧ (∀ (p : Page) (n pc : Nat) (g : Font), (captionDraw p n pc g).size = 10)
    ∧ blankPage.overlays = [] := by
  refine ⟨stampPages_length pages text pageCount f sz, ?_, fun p n pc g => rfl, rfl⟩
  unfold stampPages
  cases pages with
  | nil => rfl
  | cons first rest =>
      simp [List.enum_cons, List.map_map, Function.comp, List.getLast?_concat]
      rfl

/-- A state holding one valid one-page attachment but whose session font
fetch has not completed (`fontBytes = null`). -/
def fontlessState : AppState :=
  { mainDocument := none, attachments := [PDFBytes.valid [onePage]], evidence := [],
    previewUrl := none, fontBytes := none, fontSize := 16, attachmentStartNumber := 1,
    evidenceStartNumber := 1, addBlankForDoubleSided := true,
    attachmentName := "附件", evidenceName := "證物" }

/-- Claim C7, counterexample: with a valid attachment present but no
font buffer, `processAndMergePDFs` aborts with the font-loading notice
and leaves the preview untouched — the merge pipeline does not run to
completion on the fallback font. -/
theorem font_missing_aborts_cex :
    processAndMergePDFs fontlessState = (fontlessState, .error .fontUnavailable) := rfl

/-- Claim C7 as amended: when the font resource is unavailable, a
non-empty assembly run aborts with the font-unavailable notice before
entering the merge pipeline, leaving the state untouched; the built-in
fallback font branch of `addTextToPDF` applies only when `addTextToPDF`
is invoked without a font buffer, which `processAndMergePDFs` never
does. -/
theorem font_missing_aborts :
    (∀ st : AppState, st.fontBytes = none →
      ¬(st.mainDocument = none ∧ st.attachments = [] ∧ st.evidence = []) →
      processAndMergePDFs st = (st, .error .fontUnavailable))
    ∧ (∀ (ps : List Page) (t pt : String) (pc fs : Nat),
        addTextToPDF (.valid ps) t pt pc none fs
          = .ok (.valid (stampPages ps t pc .helvetica fs))) := by
  constructor
  · intro st h hne
    simp [processAndMergePDFs, h, hne]
  · intro ps t pt pc fs
    rfl

theorem font_missing_aborts_witness :
    processAndMergePDFs fontlessState = (fontlessState, .error .fontUnavailable) ∧
    addTextToPDF (.valid [onePage]) "附件1" "第 \x7bpageNum\x7d 頁 共 1 頁" 1 none 16
      = .ok (.valid (stampPages [onePage] "附件1" 1 .helvetica 16)) :=
  ⟨font_missing_aborts.1 fontlessState rfl (by decide),
   font_missing_aborts.2 [onePage] "附件1" "第 \x7bpageNum\x7d 頁 共 1 頁" 1 16⟩

theorem processGroup_malformed (files : List PDFBytes) (name : String)
    (fb fs : Nat) (pad : Bool) (h : PDFBytes.malformed ∈ files) :
    ∀ n : Int, processGroup files name n fb fs pad = .error .malformedSource := by
  induction files with
  | nil => cases h
  | cons b rest ih =>
      intro n
      cases b with
      | malformed => rfl
      | valid ps =>
          have hm : PDFBytes.malformed ∈ rest := by simpa using h
          simp [processGroup, loadPDF, addTextToPDF, embedFont, ih hm,
            Bind.bind, Except.bind, pure, Except.pure]

theorem processGroup_no_malformed (files : List PDFBytes) (name : String)
    (fb fs : Nat) (pad : Bool) (h : PDFBytes.malformed ∉ files) :
    ∀ n : Int, ∃ out, processGroup files name n fb fs pad = .ok out := by
  induction files with
  | nil => exact fun n => ⟨[], rfl⟩
  | cons b rest ih =>
      intro n
      cases b with
      | malformed => exact absurd (List.mem_cons_self _ _) h
      | valid ps =>
          have hm : PDFBytes.malformed ∉ rest := fun hr => h (List.mem_cons_of_mem _ hr)
          obtain ⟨out, hout⟩ := ih hm (n + 1)
          refine ⟨stampPages ps (name ++ toString n) ps.length .custom fs
              ++ (if pad ∧ ps.length % 2 = 1 then [blankPage] else []) ++ out, ?_⟩
          simp [processGroup, loadPDF, addTextToPDF, embedFont, hout,
            Bind.bind, Except.bind, pure, Except.pure]

theorem mergePipeline_groups_malformed (st : AppState) (fb : Nat)
    (hMain : st.mainDocument = none ∨ ∃ ps, st.mainDocument = some (.valid ps))
    (hm : PDFBytes.malformed ∈ st.attachments ∨ PDFBytes.malformed ∈ st.evidence) :
    mergePipeline st fb = .error .malformedSource := by
  by_cases hA : PDFBytes.malformed ∈ st.attachments
  · rcases hMain with h | ⟨ps, h⟩ <;>
      simp [mergePipeline, h, loadPDF, processGroup_malformed _ _ _ _ _ hA,
        Bind.bind, Except.bind, pure, Except.pure]
  · have hE : PDFBytes.malformed ∈ st.evidence := hm.resolve_left hA
    obtain ⟨outA, hOutA⟩ := processGroup_no_malformed st.attachments st.attachmentName
      fb st.fontSize st.addBlankForDoubleSided hA st.attachmentStartNumber
    rcases hMain with h | ⟨ps, h⟩ <;>
      simp [mergePipeline, h, loadPDF, hOutA, processGroup_malformed _ _ _ _ _ hE,
        Bind.bind, Except.bind, pure, Except.pure]

/-- Claim C8: if any source buffer in any group fails to parse, the
whole run aborts with the malformed-source error and no partial output
is produced: the returned state is exactly the state before the run, so
the preview value is unchanged. -/
theorem malformed_aborts (st : AppState) (fb : Nat) (hf : st.fontBytes = some fb)
    (hm : st.mainDocument = some PDFBytes.malformed
          ∨ PDFBytes.malformed ∈ st.attachments
          ∨ PDFBytes.malformed ∈ st.evidence) :
    processAndMergePDFs st = (st, .error .malformedSource) := by
  have hne : ¬(st.mainDocument = none ∧ st.attachments = [] ∧ st.evidence = []) := by
    rcases hm with h | h | h
    · rintro ⟨h1, -, -⟩; rw [h] at h1; cases h1
    · rintro ⟨-, h2, -⟩; rw [h2] at h; cases h
    · rintro ⟨-, -, h3⟩; rw [h3] at h; cases h
  have hpipe : mergePipeline st fb = .error .malformedSource := by
    rcases h : st.mainDocument with _ | mb
    · refine mergePipeline_groups_malformed st fb (Or.inl h) ?_
      rcases hm with h1 | h1 | h1
      · rw [h] at h1; cases h1
      · exact Or.inl h1
      · exact Or.inr h1
    · cases mb with
      | malformed =>
          simp [mergePipeline, h, loadPDF, Bind.bind, Except.bind]
      | valid ps =>
          refine mergePipeline_groups_malformed st fb (Or.inr ⟨ps, h⟩) ?_
          rcases hm with h1 | h1 | h1
          · rw [h] at h1; cases h1
          · exact Or.inl h1
          · exact Or.inr h1
  simp [processAndMergePDFs, hne, hf, hpipe]

/-- A state whose single evidence file is a corrupted buffer. -/
def corruptedEvidenceState : AppState :=
  { mainDocument := some (PDFBytes.valid [onePage]),
    attachments := [], evidence := [PDFBytes.malformed],
    previewUrl := none, fontBytes := some 0, fontSize := 16,
    attachmentStartNumber := 1, evidenceStartNumber := 1,
    addBlankForDoubleSided := true, attachmentName := "附件", evidenceName := "證物" }

theorem malformed_aborts_witness :
    processAndMergePDFs corruptedEvidenceState
      = (corruptedEvidenceState, .error .malformedSource) :=
  malformed_aborts corruptedEvidenceState 0 rfl
    (Or.inr (Or.inr (List.mem_cons_self _ _)))

end PdfProject
